import Mathlib

/-!
Shallow embedding of `src/salesforce_to_slack/plugins/salesforce_operator.py`
(`SalesforceToS3Operator`).

The operator's execution is modelled as a pure function over an `Env`
describing the outcome of every external hook call (Salesforce hook,
S3 hook, filesystem).  Each call the code makes is recorded, in order, as an
`Event` in a trace; a call that raises is modelled by the `Env` returning
`.error`, which aborts the execution at the corresponding point, exactly as
an uncaught Python exception would.  The `with NamedTemporaryFile` block is
modelled by appending a `tmpDelete` event on every exit path of `execute`.

Python truthiness (`if not self.fields`, `if self.query`,
`if relationship_object`, `if r.get(relationship_object, None)`) is modelled
explicitly: `None`, the empty string, the empty list and the empty dict are
falsy; nested relationship values of shape `{'records': [...]}` are non-empty
dicts and hence always truthy.
-/

namespace SalesforceToS3

abbrev Err := String

/-- A Salesforce record value: either a scalar (modelled as a string, with
Python truthiness given by non-emptiness) or a nested relationship
collection, i.e. a sub-dict of shape `{'records': [...]}`. -/
inductive RValue where
  | atom : String → RValue
  | nested : List (List (String × RValue)) → RValue

/-- A record is a mapping from field names to values (association list). -/
abbrev Record := List (String × RValue)

/-- The dict returned by `make_query` / `get_object_from_salesforce`:
the record list is stored under the `records` key. -/
structure QueryResult where
  records : List Record

/-- Python truthiness of an optional string: `None` and `""` are falsy. -/
def truthyOptStr : Option String → Bool
  | none => false
  | some s => !s.isEmpty

/-- Python truthiness of the optional field list: `None` and `[]` are falsy. -/
def truthyFields : Option (List String) → Bool
  | none => false
  | some l => !l.isEmpty

/-- Python truthiness of a record value.  A nested relationship value is the
dict `{'records': rs}`, a non-empty dict, hence truthy even when `rs = []`. -/
def truthyVal : RValue → Bool
  | .atom s => !s.isEmpty
  | .nested _ => true

/-- `r.get(k, None)`. -/
def recGet (r : Record) (k : String) : Option RValue :=
  (r.find? (fun p => p.1 == k)).map (fun p => p.2)

/-- The flattening loop of `special_query`:
`for r in results['records']: if r.get(relationship_object, None):
records.extend(r[relationship_object]['records'])`.
Extracting `['records']` from a truthy scalar raises a `TypeError` in Python,
modelled as `.error`. -/
def flattenRecords (relObj : String) : List Record → Except Err (List Record)
  | [] => .ok []
  | r :: rest =>
    match recGet r relObj with
    | none => flattenRecords relObj rest
    | some v =>
      if truthyVal v then
        match v with
        | .nested rs =>
          match flattenRecords relObj rest with
          | .ok tail => .ok (rs ++ tail)
          | .error e => .error e
        | .atom _ => .error "TypeError: relationship value has no records"
      else
        flattenRecords relObj rest

/-- One external call made during execution, with its arguments. -/
inductive Event where
  | signIn
  | getAvailableFields (obj : String)
  | makeQuery (q : String)
  | getObject (obj : String) (fields : List String)
  | writeObjectToFile (records : List Record) (filename fmt : String)
      (coerce timeAdded : Bool)
  | flush
  | loadFile (filename key bucket : String) (replace : Bool)
  | closeConn
  | tmpClose
  | tmpDelete

/-- Outcomes of the external hook calls.  `signIn` is indexed by the number of
previous sign-in calls in the same execution, so a later sign-in may behave
differently from the first. -/
structure Env where
  signIn : Nat → Except Err Unit
  getAvailableFields : String → Except Err (List String)
  makeQuery : String → Except Err QueryResult
  getObject : String → List String → Except Err QueryResult
  writeObjectToFile : Except Err Unit
  loadFile : Except Err Unit
  tmpName : String

/-- Execution state: number of sign-in calls made so far, and the trace of
hook calls in order. -/
structure St where
  nSignIn : Nat
  trace : List Event

def emit (e : Event) (s : St) : St :=
  { s with trace := s.trace ++ [e] }

/-- `sf_hook.sign_in()`: records the call and returns the hook's outcome. -/
def doSignIn (env : Env) (s : St) : Except Err Unit × St :=
  (env.signIn s.nSignIn, { nSignIn := s.nSignIn + 1, trace := s.trace ++ [Event.signIn] })

/-- The operator's stored configuration (the attributes set by `__init__`). -/
structure Config where
  sf_conn_id : String
  output : String
  s3_conn_id : String
  s3_bucket : String
  object : String
  fields : Option (List String)
  fmt : String
  query : Option String
  relationship_object : Option String
  record_time_added : Bool
  coerce_to_timestamp : Bool

/-- `SalesforceToS3Operator.__init__`: stores the configuration; the format
tag is lowercased (`fmt.lower()`). -/
def init (sf_conn_id obj output s3_conn_id s3_bucket : String)
    (fields : Option (List String)) (fmt : String) (query : Option String)
    (relationship_object : Option String)
    (record_time_added coerce_to_timestamp : Bool) : Config :=
  { sf_conn_id := sf_conn_id
    output := output
    s3_conn_id := s3_conn_id
    s3_bucket := s3_bucket
    object := obj
    fields := fields
    fmt := fmt.toLower
    query := query
    relationship_object := relationship_object
    record_time_added := record_time_added
    coerce_to_timestamp := coerce_to_timestamp }

/-- `SalesforceToS3Operator.special_query`: raises `ValueError` when the query
is falsy, then signs in, runs the query, and flattens the nested relationship
collections when a relationship object is configured. -/
def special_query (env : Env) (query : Option String)
    (relationship_object : Option String) (s : St) :
    Except Err QueryResult × St :=
  if truthyOptStr query then
    let r1 := doSignIn env s
    match r1.1 with
    | .error e => (.error e, r1.2)
    | .ok _ =>
      let q := query.getD ""
      let s := emit (.makeQuery q) r1.2
      match env.makeQuery q with
      | .error e => (.error e, s)
      | .ok results =>
        if truthyOptStr relationship_object then
          match flattenRecords (relationship_object.getD "") results.records with
          | .ok recs => (.ok { records := recs }, s)
          | .error e => (.error e, s)
        else
          (.ok results, s)
  else
    (.error "Query is None.  Cannot query nothing", s)

/-- Lines 132-133 of `execute`:
`if not self.fields: self.fields = hook.get_available_fields(self.object)`.
Returns the (possibly mutated) configuration. -/
def resolveFields (env : Env) (cfg : Config) (s : St) : Except Err Config × St :=
  if truthyFields cfg.fields then
    (.ok cfg, s)
  else
    let s := emit (.getAvailableFields cfg.object) s
    match env.getAvailableFields cfg.object with
    | .error e => (.error e, s)
    | .ok fs => (.ok { cfg with fields := some fs }, s)

/-- The fetch fork of `execute`: `if self.query: special_query(...) else
get_object_from_salesforce(self.object, self.fields)`. -/
def fetchStage (env : Env) (cfg : Config) (s : St) : Except Err QueryResult × St :=
  if truthyOptStr cfg.query then
    special_query env cfg.query cfg.relationship_object s
  else
    let s := emit (.getObject cfg.object (cfg.fields.getD [])) s
    (env.getObject cfg.object (cfg.fields.getD []), s)

/-- The part of `execute` after the field list has been resolved: fetch,
serialize to the temporary file, flush, upload, close connections.  This part
never touches the stored configuration. -/
def postResolve (env : Env) (cfg2 : Config) (s : St) : Except Err Unit × St :=
  match fetchStage env cfg2 s with
  | (.error e, s) => (.error e, s)
  | (.ok qres, s) =>
    let s := emit (.writeObjectToFile qres.records env.tmpName cfg2.fmt
      cfg2.coerce_to_timestamp cfg2.record_time_added) s
    match env.writeObjectToFile with
    | .error e => (.error e, s)
    | .ok _ =>
      let s := emit .flush s
      let s := emit (.loadFile env.tmpName cfg2.output cfg2.s3_bucket true) s
      match env.loadFile with
      | .error e => (.error e, s)
      | .ok _ =>
        let s := emit .closeConn s
        let s := emit .tmpClose s
        (.ok (), s)

/-- The body of the `with NamedTemporaryFile` block of `execute`: sign in,
resolve the field list, then `postResolve`.  Returns the outcome, the final
stored configuration, and the state. -/
def executeBody (env : Env) (cfg : Config) (s : St) : Except Err Unit × Config × St :=
  let r1 := doSignIn env s
  match r1.1 with
  | .error e => (.error e, cfg, r1.2)
  | .ok _ =>
    match resolveFields env cfg r1.2 with
    | (.error e, s) => (.error e, cfg, s)
    | (.ok cfg2, s) =>
      let out := postResolve env cfg2 s
      (out.1, cfg2, out.2)

/-- `SalesforceToS3Operator.execute`: runs the body inside the
`with NamedTemporaryFile` scope, whose exit deletes the temporary file on
every path, success or exception. -/
def execute (env : Env) (cfg : Config) : Except Err Unit × Config × List Event :=
  let out := executeBody env cfg { nSignIn := 0, trace := [] }
  (out.1, out.2.1, out.2.2.trace ++ [Event.tmpDelete])

/-! ### Trace observations used by the claims -/

def isLoad : Event → Bool
  | .loadFile _ _ _ _ => true
  | _ => false

def isMakeQuery : Event → Bool
  | .makeQuery _ => true
  | _ => false

def isGetObject : Event → Bool
  | .getObject _ _ => true
  | _ => false

def isGetAvailableFields : Event → Bool
  | .getAvailableFields _ => true
  | _ => false

def hasMakeQuery (t : List Event) : Bool := t.any isMakeQuery

def hasGetObject (t : List Event) : Bool := t.any isGetObject

def hasFetch (t : List Event) : Bool := hasMakeQuery t || hasGetObject t

def hasGetAvailableFields (t : List Event) : Bool := t.any isGetAvailableFields

/-- The upload calls occurring in a trace. -/
def loadEvents (t : List Event) : List Event := t.filter isLoad

/-- A named-object fetch event carrying an empty field list. -/
def isEmptyFetch : Event → Bool
  | .getObject _ fs => fs.isEmpty
  | _ => false

/-- True when some named-object fetch in the trace carries an empty field
list. -/
def fetchWithEmptyFields (t : List Event) : Bool := t.any isEmptyFetch

/-- A call to the CRM hook (sign-in, field listing, or either fetch). -/
def isCrmCall : Event → Bool
  | .signIn => true
  | .getAvailableFields _ => true
  | .makeQuery _ => true
  | .getObject _ _ => true
  | _ => false

/-- The number of sign-in calls made before the first raw query of the
trace. -/
def signInsBeforeFirstMakeQuery : List Event → Nat
  | [] => 0
  | .makeQuery _ :: _ => 0
  | .signIn :: rest => signInsBeforeFirstMakeQuery rest + 1
  | _ :: rest => signInsBeforeFirstMakeQuery rest

/-! ### Concrete fixtures for witnesses and counterexamples -/

/-- An environment in which every hook call succeeds. -/
def env0 : Env where
  signIn := fun _ => .ok ()
  getAvailableFields := fun _ => .ok ["Id"]
  makeQuery := fun _ => .ok { records := [] }
  getObject := fun _ _ => .ok { records := [] }
  writeObjectToFile := .ok ()
  loadFile := .ok ()
  tmpName := "/tmp/t0"

/-- A configuration with no explicit field list and no custom query. -/
def cfgNone : Config where
  sf_conn_id := "sf_default"
  output := "out.csv"
  s3_conn_id := "s3_default"
  s3_bucket := "bucket"
  object := "Account"
  fields := none
  fmt := "csv"
  query := none
  relationship_object := none
  record_time_added := false
  coerce_to_timestamp := false

/-- An environment whose field listing returns the empty field set. -/
def envNoFields : Env := { env0 with getAvailableFields := fun _ => .ok [] }

/-- An environment in which every sign-in attempt raises. -/
def envAuthFail : Env := { env0 with signIn := fun _ => .error "auth failed" }

/-- A configuration selecting custom-query mode. -/
def cfgQuery : Config := { cfgNone with query := some "SELECT Id FROM Account" }

/-- A configuration with an explicit but empty field list. -/
def cfgFieldsEmpty : Config := { cfgNone with fields := some [] }

def recA : Record := [("Id", .atom "a")]

def recB : Record := [("Id", .atom "b")]

/-- The C5 query result: `[{Contacts: {records: [A, B]}}, {other: 1}]`. -/
def qrContacts : QueryResult :=
  { records := [[("Contacts", .nested [recA, recB])], [("other", .atom "1")]] }

/-- An environment whose raw query returns `qrContacts`. -/
def envContacts : Env := { env0 with makeQuery := fun _ => .ok qrContacts }

/-! ### Helper lemmas -/

lemma isLoad_of_isCrmCall {e : Event} (h : isCrmCall e = true) : isLoad e = false := by
  cases e <;> simp_all [isCrmCall, isLoad]

/-- Events that are not CRM calls are neither fetches nor field listings. -/
lemma not_crm_any_false (t : List Event) (h : t.all (fun e => !isCrmCall e) = true) :
    t.any isEmptyFetch = false ∧ t.any isMakeQuery = false ∧
      t.any isGetObject = false ∧ t.any isGetAvailableFields = false := by
  induction t with
  | nil => simp
  | cons e rest ih =>
    simp only [List.all_cons, Bool.and_eq_true] at h
    rcases h with ⟨he, hrest⟩
    have := ih hrest
    cases e <;> simp_all [isCrmCall, isEmptyFetch, isMakeQuery, isGetObject,
      isGetAvailableFields]

/-- Trace shape of `special_query` on a truthy query: the sign-in call is
recorded; the raw query call follows exactly when the sign-in succeeded. -/
lemma special_query_trace (env : Env) (q ro : Option String) (s : St)
    (hq : truthyOptStr q = true) :
    (∃ e, env.signIn s.nSignIn = .error e ∧
        (special_query env q ro s).2.trace = s.trace ++ [Event.signIn]) ∨
      (env.signIn s.nSignIn = .ok () ∧
        (special_query env q ro s).2.trace =
          s.trace ++ [Event.signIn, Event.makeQuery (q.getD "")]) := by
  rcases hs : env.signIn s.nSignIn with e | ⟨⟩
  · exact Or.inl ⟨e, rfl, by simp [special_query, doSignIn, emit, hq, hs]⟩
  · right
    refine ⟨rfl, ?_⟩
    simp only [special_query, doSignIn, emit, hq, hs, if_true]
    rcases hm : env.makeQuery (q.getD "") with e | res
    · simp [hm]
    · simp only [hm]
      split <;> (try split) <;> simp

/-- Case analysis of the field-resolution step. -/
lemma resolveFields_cases (env : Env) (cfg : Config) (s : St) :
    (truthyFields cfg.fields = true ∧ resolveFields env cfg s = (.ok cfg, s)) ∨
      (truthyFields cfg.fields = false ∧
        ((∃ e, env.getAvailableFields cfg.object = .error e ∧
            resolveFields env cfg s =
              (.error e, emit (.getAvailableFields cfg.object) s)) ∨
          (∃ fs, env.getAvailableFields cfg.object = .ok fs ∧
            resolveFields env cfg s =
              (.ok { cfg with fields := some fs },
                emit (.getAvailableFields cfg.object) s)))) := by
  by_cases ht : truthyFields cfg.fields = true
  · exact Or.inl ⟨ht, by simp [resolveFields, ht]⟩
  · have ht' : truthyFields cfg.fields = false := by simpa using ht
    refine Or.inr ⟨ht', ?_⟩
    rcases ha : env.getAvailableFields cfg.object with e | fs
    · exact Or.inl ⟨e, rfl, by simp [resolveFields, ht', ha]⟩
    · exact Or.inr ⟨fs, rfl, by simp [resolveFields, ht', ha]⟩

/-- The post-resolution stage only appends non-CRM events after the fetch
stage's trace. -/
lemma postResolve_trace (env : Env) (cfg2 : Config) (s : St) :
    ∃ post, (postResolve env cfg2 s).2.trace = (fetchStage env cfg2 s).2.trace ++ post ∧
      post.all (fun e => !isCrmCall e) = true := by
  rcases hf : fetchStage env cfg2 s with ⟨r, s1⟩
  rcases r with e | qres
  · exact ⟨[], by simp [postResolve, hf], rfl⟩
  · rcases hw : env.writeObjectToFile with e | w
    · exact ⟨[Event.writeObjectToFile qres.records env.tmpName cfg2.fmt
          cfg2.coerce_to_timestamp cfg2.record_time_added],
        by simp [postResolve, hf, hw, emit], by simp [isCrmCall]⟩
    · rcases hl : env.loadFile with e | l
      · exact ⟨[Event.writeObjectToFile qres.records env.tmpName cfg2.fmt
            cfg2.coerce_to_timestamp cfg2.record_time_added, Event.flush,
            Event.loadFile env.tmpName cfg2.output cfg2.s3_bucket true],
          by simp [postResolve, hf, hw, hl, emit], by simp [isCrmCall]⟩
      · exact ⟨[Event.writeObjectToFile qres.records env.tmpName cfg2.fmt
            cfg2.coerce_to_timestamp cfg2.record_time_added, Event.flush,
            Event.loadFile env.tmpName cfg2.output cfg2.s3_bucket true,
            Event.closeConn, Event.tmpClose],
          by simp [postResolve, hf, hw, hl, emit], by simp [isCrmCall]⟩

/-- On success, the post-resolution stage recorded exactly serialization,
flush, upload (with `replace = true`, the configured bucket and key), and the
connection closes, in that order, after the fetch stage's trace. -/
lemma postResolve_ok (env : Env) (cfg2 : Config) (s : St)
    (h : (postResolve env cfg2 s).1 = .ok ()) :
    ∃ qres s1, fetchStage env cfg2 s = (.ok qres, s1) ∧
      (postResolve env cfg2 s).2.trace =
        s1.trace ++
          [Event.writeObjectToFile qres.records env.tmpName cfg2.fmt
              cfg2.coerce_to_timestamp cfg2.record_time_added,
            Event.flush,
            Event.loadFile env.tmpName cfg2.output cfg2.s3_bucket true,
            Event.closeConn, Event.tmpClose] := by
  rcases hf : fetchStage env cfg2 s with ⟨r, s1⟩
  rcases r with e | qres
  · simp [postResolve, hf] at h
  · rcases hw : env.writeObjectToFile with e | w
    · simp [postResolve, hf, hw] at h
    · rcases hl : env.loadFile with e | l
      · simp [postResolve, hf, hw, hl] at h
      · exact ⟨qres, s1, rfl, by simp [postResolve, hf, hw, hl, emit]⟩

/-- Case analysis of the fetch fork: either custom-query mode (with its
second sign-in, then the raw query when that sign-in succeeds) or
named-object mode. -/
lemma fetchStage_cases (env : Env) (cfg2 : Config) (s : St) :
    (truthyOptStr cfg2.query = true ∧
        ((∃ e, env.signIn s.nSignIn = .error e ∧
            (fetchStage env cfg2 s).2.trace = s.trace ++ [Event.signIn]) ∨
          (env.signIn s.nSignIn = .ok () ∧
            (fetchStage env cfg2 s).2.trace =
              s.trace ++ [Event.signIn, Event.makeQuery (cfg2.query.getD "")]))) ∨
      (truthyOptStr cfg2.query = false ∧
        (fetchStage env cfg2 s).2.trace =
          s.trace ++ [Event.getObject cfg2.object (cfg2.fields.getD [])]) := by
  by_cases hq : truthyOptStr cfg2.query = true
  · exact Or.inl ⟨hq,
      by simpa [fetchStage, hq] using
        special_query_trace env cfg2.query cfg2.relationship_object s hq⟩
  · have hq' : truthyOptStr cfg2.query = false := by simpa using hq
    exact Or.inr ⟨hq', by simp [fetchStage, hq', emit]⟩

/-- The final stored configuration is either the initial one or the initial
one with the field list overwritten by a successful `get_available_fields`
result; the overwrite happens only when the configured list was falsy. -/
lemma execute_config_cases (env : Env) (cfg : Config) :
    (execute env cfg).2.1 = cfg ∨
      (truthyFields cfg.fields = false ∧
        ∃ fs, env.getAvailableFields cfg.object = .ok fs ∧
          (execute env cfg).2.1 = { cfg with fields := some fs }) := by
  simp only [execute, executeBody, resolveFields, doSignIn, emit]
  rcases hs : env.signIn 0 with e | u
  · simp
  · simp only []
    by_cases ht : truthyFields cfg.fields
    · simp [ht]
    · simp only [ht, if_neg, Bool.false_eq_true, if_false]
      rcases ha : env.getAvailableFields cfg.object with e | fs
      · simp
      · right
        exact ⟨by simp [ht], fs, rfl, rfl⟩

lemma isEmpty_false_of_ne_nil {α : Type} {l : List α} (h : l ≠ []) :
    l.isEmpty = false := by
  cases l with
  | nil => exact absurd rfl h
  | cons a t => rfl

/-- Master case analysis of one execution: it aborts at the first sign-in, or
aborts at the field listing, or reaches the fetch stage, in which case the
trace decomposes into the initial sign-in, the resolution events, the fetch
events of exactly the configured mode, non-CRM tail events, and the final
temporary-file deletion. -/
lemma execute_cases (env : Env) (cfg : Config) :
    (∃ e, env.signIn 0 = .error e ∧
        execute env cfg = (.error e, cfg, [Event.signIn, Event.tmpDelete])) ∨
      (env.signIn 0 = .ok () ∧ truthyFields cfg.fields = false ∧
        ∃ e, env.getAvailableFields cfg.object = .error e ∧
          execute env cfg =
            (.error e, cfg,
              [Event.signIn, Event.getAvailableFields cfg.object, Event.tmpDelete])) ∨
      (env.signIn 0 = .ok () ∧
        ∃ cfg2 rEvts post,
          ((truthyFields cfg.fields = true ∧ cfg2 = cfg ∧ rEvts = ([] : List Event)) ∨
            (truthyFields cfg.fields = false ∧
              ∃ fs, env.getAvailableFields cfg.object = .ok fs ∧
                cfg2 = { cfg with fields := some fs } ∧
                rEvts = [Event.getAvailableFields cfg.object])) ∧
          (execute env cfg).2.1 = cfg2 ∧
          post.all (fun e => !isCrmCall e) = true ∧
          ((truthyOptStr cfg.query = true ∧
              ((∃ e, env.signIn 1 = .error e ∧
                  (execute env cfg).2.2 =
                    Event.signIn :: rEvts ++ [Event.signIn] ++ post ++
                      [Event.tmpDelete]) ∨
                (env.signIn 1 = .ok () ∧
                  (execute env cfg).2.2 =
                    Event.signIn :: rEvts ++
                      [Event.signIn, Event.makeQuery (cfg.query.getD "")] ++ post ++
                      [Event.tmpDelete]))) ∨
            (truthyOptStr cfg.query = false ∧
              (execute env cfg).2.2 =
                Event.signIn :: rEvts ++
                  [Event.getObject cfg.object (cfg2.fields.getD [])] ++ post ++
                  [Event.tmpDelete]))) := by
  rcases hs : env.signIn 0 with e | ⟨⟩
  · exact Or.inl ⟨e, rfl, by simp [execute, executeBody, doSignIn, hs]⟩
  · right
    rcases resolveFields_cases env cfg ⟨1, [Event.signIn]⟩ with ⟨ht, hr⟩ |
      ⟨ht, ⟨e, ha, hr⟩ | ⟨fs, ha, hr⟩⟩
    · right
      refine ⟨rfl, cfg, [], ?_⟩
      have hb : execute env cfg =
          ((postResolve env cfg ⟨1, [Event.signIn]⟩).1, cfg,
            (postResolve env cfg ⟨1, [Event.signIn]⟩).2.trace ++
              [Event.tmpDelete]) := by
        simp [execute, executeBody, doSignIn, hs, hr]
      obtain ⟨post, hpt, hpall⟩ := postResolve_trace env cfg ⟨1, [Event.signIn]⟩
      refine ⟨post, Or.inl ⟨ht, rfl, rfl⟩, by rw [hb], hpall, ?_⟩
      rcases fetchStage_cases env cfg ⟨1, [Event.signIn]⟩ with ⟨hq, hfsub⟩ | ⟨hq, hft⟩
      · left
        refine ⟨hq, ?_⟩
        rcases hfsub with ⟨e, h1, hft⟩ | ⟨h1, hft⟩
        · exact Or.inl ⟨e, h1, by rw [hb]; simp [hpt, hft]⟩
        · exact Or.inr ⟨h1, by rw [hb]; simp [hpt, hft]⟩
      · exact Or.inr ⟨hq, by rw [hb]; simp [hpt, hft]⟩
    · exact Or.inl ⟨rfl, ht, e, ha, by simp [execute, executeBody, doSignIn, hs, hr, emit]⟩
    · right
      refine ⟨rfl, { cfg with fields := some fs }, [Event.getAvailableFields cfg.object], ?_⟩
      have hb : execute env cfg =
          ((postResolve env { cfg with fields := some fs }
              ⟨1, [Event.signIn, Event.getAvailableFields cfg.object]⟩).1,
            { cfg with fields := some fs },
            (postResolve env { cfg with fields := some fs }
              ⟨1, [Event.signIn, Event.getAvailableFields cfg.object]⟩).2.trace ++
              [Event.tmpDelete]) := by
        simp [execute, executeBody, doSignIn, hs, hr, emit]
      obtain ⟨post, hpt, hpall⟩ := postResolve_trace env { cfg with fields := some fs }
        ⟨1, [Event.signIn, Event.getAvailableFields cfg.object]⟩
      refine ⟨post, Or.inr ⟨ht, fs, ha, rfl, rfl⟩, by rw [hb], hpall, ?_⟩
      rcases fetchStage_cases env { cfg with fields := some fs }
          ⟨1, [Event.signIn, Event.getAvailableFields cfg.object]⟩ with
        ⟨hq, hfsub⟩ | ⟨hq, hft⟩
      · left
        refine ⟨by simpa using hq, ?_⟩
        rcases hfsub with ⟨e, h1, hft⟩ | ⟨h1, hft⟩
        · exact Or.inl ⟨e, h1, by rw [hb]; simp [hpt, hft]⟩
        · exact Or.inr ⟨h1, by rw [hb]; simp [hpt, hft]⟩
      · exact Or.inr ⟨by simpa using hq, by rw [hb]; simp [hpt, hft]⟩

lemma filter_isLoad_nil_of_crm (t : List Event) (h : t.all isCrmCall = true) :
    t.filter isLoad = [] := by
  induction t with
  | nil => rfl
  | cons e rest ih =>
    simp only [List.all_cons, Bool.and_eq_true] at h
    simp [List.filter_cons, isLoad_of_isCrmCall h.1, ih h.2]

lemma signInsBefore_signIn (t : List Event) :
    signInsBeforeFirstMakeQuery (Event.signIn :: t) =
      signInsBeforeFirstMakeQuery t + 1 := rfl

lemma signInsBefore_makeQuery (q : String) (t : List Event) :
    signInsBeforeFirstMakeQuery (Event.makeQuery q :: t) = 0 := rfl

lemma signInsBefore_getAvailableFields (o : String) (t : List Event) :
    signInsBeforeFirstMakeQuery (Event.getAvailableFields o :: t) =
      signInsBeforeFirstMakeQuery t := rfl

/-- On success, execution reached and finished the post-resolution stage,
starting it from a state whose trace holds only CRM calls. -/
lemma execute_ok (env : Env) (cfg : Config) (h : (execute env cfg).1 = .ok ()) :
    ∃ cfg2 s2, (execute env cfg).2.1 = cfg2 ∧
      (postResolve env cfg2 s2).1 = .ok () ∧
      cfg2.output = cfg.output ∧ cfg2.s3_bucket = cfg.s3_bucket ∧
      cfg2.fmt = cfg.fmt ∧ cfg2.coerce_to_timestamp = cfg.coerce_to_timestamp ∧
      cfg2.record_time_added = cfg.record_time_added ∧
      s2.trace.all isCrmCall = true ∧
      (execute env cfg).2.2 = (postResolve env cfg2 s2).2.trace ++ [Event.tmpDelete] := by
  rcases hs : env.signIn 0 with e | ⟨⟩
  · simp [execute, executeBody, doSignIn, hs] at h
  · rcases resolveFields_cases env cfg ⟨1, [Event.signIn]⟩ with ⟨ht, hr⟩ |
      ⟨ht, ⟨e, ha, hr⟩ | ⟨fs, ha, hr⟩⟩
    · have hb : execute env cfg =
          ((postResolve env cfg ⟨1, [Event.signIn]⟩).1, cfg,
            (postResolve env cfg ⟨1, [Event.signIn]⟩).2.trace ++ [Event.tmpDelete]) := by
        simp [execute, executeBody, doSignIn, hs, hr]
      rw [hb] at h
      exact ⟨cfg, ⟨1, [Event.signIn]⟩, by rw [hb], h, rfl, rfl, rfl, rfl, rfl,
        by simp [isCrmCall], by rw [hb]⟩
    · simp [execute, executeBody, doSignIn, hs, hr] at h
    · have hb : execute env cfg =
          ((postResolve env { cfg with fields := some fs }
              ⟨1, [Event.signIn, Event.getAvailableFields cfg.object]⟩).1,
            { cfg with fields := some fs },
            (postResolve env { cfg with fields := some fs }
              ⟨1, [Event.signIn, Event.getAvailableFields cfg.object]⟩).2.trace ++
              [Event.tmpDelete]) := by
        simp [execute, executeBody, doSignIn, hs, hr, emit]
      rw [hb] at h
      exact ⟨{ cfg with fields := some fs },
        ⟨1, [Event.signIn, Event.getAvailableFields cfg.object]⟩, by rw [hb], h,
        rfl, rfl, rfl, rfl, rfl, by simp [isCrmCall], by rw [hb]⟩

/-! ### Claim theorems -/

/-- C1: in custom-query mode, an empty or absent query string raises the
configuration error (`ValueError("Query is None.  Cannot query nothing")`)
immediately: the state is unchanged, so no CRM hook call (no sign-in, no
field listing, no query) has been made. -/
theorem special_query_empty_raises_before_hook_calls
    (env : Env) (q ro : Option String) (s : St) (h : truthyOptStr q = false) :
    special_query env q ro s = (.error "Query is None.  Cannot query nothing", s) := by
  simp [special_query, h]

theorem special_query_empty_raises_before_hook_calls_witness :
    truthyOptStr none = false ∧
      special_query env0 none none { nSignIn := 0, trace := [] } =
        (.error "Query is None.  Cannot query nothing", { nSignIn := 0, trace := [] }) :=
  ⟨rfl, special_query_empty_raises_before_hook_calls env0 none none _ rfl⟩

/-- C2 (counterexample): with no explicit field list configured and an
environment in which every hook call succeeds, `execute` overwrites the
stored field list (`self.fields = hook.get_available_fields(self.object)`),
so the configuration is not unchanged at the end of `execute`. -/
theorem execute_mutates_stored_fields :
    (execute env0 cfgNone).2.1.fields ≠ cfgNone.fields := by
  decide

/-- C2 (amended): every configuration field except the field list is
unchanged by `execute`, and the field list itself is unchanged whenever a
non-empty explicit field list was configured; only a falsy (absent or empty)
field list is overwritten, with the hook's full field set. -/
theorem execute_preserves_config_except_fields (env : Env) (cfg : Config) :
    ((execute env cfg).2.1.sf_conn_id = cfg.sf_conn_id ∧
      (execute env cfg).2.1.output = cfg.output ∧
      (execute env cfg).2.1.s3_conn_id = cfg.s3_conn_id ∧
      (execute env cfg).2.1.s3_bucket = cfg.s3_bucket ∧
      (execute env cfg).2.1.object = cfg.object ∧
      (execute env cfg).2.1.fmt = cfg.fmt ∧
      (execute env cfg).2.1.query = cfg.query ∧
      (execute env cfg).2.1.relationship_object = cfg.relationship_object ∧
      (execute env cfg).2.1.record_time_added = cfg.record_time_added ∧
      (execute env cfg).2.1.coerce_to_timestamp = cfg.coerce_to_timestamp) ∧
    (truthyFields cfg.fields = true → (execute env cfg).2.1.fields = cfg.fields) := by
  rcases execute_config_cases env cfg with h | ⟨hf, fs, _, h⟩ <;> rw [h] <;>
    simp_all

theorem execute_preserves_config_except_fields_witness :
    (execute env0 { cfgNone with fields := some ["Id", "Name"] }).2.1.fields =
      ({ cfgNone with fields := some ["Id", "Name"] } : Config).fields :=
  (execute_preserves_config_except_fields env0
    { cfgNone with fields := some ["Id", "Name"] }).2 (by decide)

/-- C7: on every exit path of `execute` — success or failure of any hook
call — the last recorded event is the deletion of the temporary file, i.e.
the `with NamedTemporaryFile` scope removes the file when `execute` returns
or raises. -/
theorem tmp_file_deleted_on_every_exit_path (env : Env) (cfg : Config) :
    ((execute env cfg).2.2).getLast? = some Event.tmpDelete := by
  simp [execute]

/-- C3 (counterexample): when no explicit field list is configured and the
hook's field listing returns the empty set, the named-object fetch still
executes, carrying an empty field list — the code has no non-emptiness
guard. -/
theorem fetch_executes_with_empty_field_list :
    fetchWithEmptyFields (execute envNoFields cfgNone).2.2 = true := by
  decide

/-- C3 (amended): provided the hook's field listing never returns an empty
field set, the resolved field list is non-empty at the point the fetch
executes: no named-object fetch carries an empty field list, and whenever a
fetch (of either mode) occurs the stored resolved field list is a non-empty
list. -/
theorem resolved_field_list_nonempty_at_fetch (env : Env) (cfg : Config)
    (h : ∀ o fs, env.getAvailableFields o = .ok fs → fs ≠ []) :
    fetchWithEmptyFields (execute env cfg).2.2 = false ∧
      (hasFetch (execute env cfg).2.2 = true →
        truthyFields (execute env cfg).2.1.fields = true) := by
  rcases execute_cases env cfg with ⟨e, hs, hx⟩ | ⟨hs, ht, e, ha, hx⟩ |
    ⟨hs, cfg2, rEvts, post, hres, hfin, hpost, hfetch⟩
  · simp [hx, fetchWithEmptyFields, hasFetch, hasMakeQuery, hasGetObject,
      isEmptyFetch, isMakeQuery, isGetObject]
  · simp [hx, fetchWithEmptyFields, hasFetch, hasMakeQuery, hasGetObject,
      isEmptyFetch, isMakeQuery, isGetObject]
  · obtain ⟨hpe, hpm, hpg, hpa⟩ := not_crm_any_false post hpost
    rcases hres with ⟨ht, rfl, rfl⟩ | ⟨ht, fs, ha, rfl, rfl⟩
    · have hcfg2 : truthyFields cfg2.fields = true ∧
          (cfg2.fields.getD []).isEmpty = false := by
        refine ⟨ht, ?_⟩
        cases hl : cfg2.fields with
        | none => rw [hl] at ht; simp [truthyFields] at ht
        | some l =>
          rw [hl] at ht
          simp only [truthyFields, Bool.not_eq_true'] at ht
          simp [hl, ht]
      refine ⟨?_, fun _ => by rw [hfin]; exact hcfg2.1⟩
      rcases hfetch with ⟨hq, ⟨e, h1, htr⟩ | ⟨h1, htr⟩⟩ | ⟨hq, htr⟩ <;>
        simp [htr, fetchWithEmptyFields, List.any_append, isEmptyFetch, hpe, hcfg2.2]
    · have hne := isEmpty_false_of_ne_nil (h _ _ ha)
      refine ⟨?_, fun _ => by rw [hfin]; simp [truthyFields, hne]⟩
      rcases hfetch with ⟨hq, ⟨e, h1, htr⟩ | ⟨h1, htr⟩⟩ | ⟨hq, htr⟩ <;>
        simp [htr, fetchWithEmptyFields, List.any_append, isEmptyFetch, hpe, hne]

theorem resolved_field_list_nonempty_at_fetch_witness :
    (∀ o fs, env0.getAvailableFields o = .ok fs → fs ≠ []) ∧
      (fetchWithEmptyFields (execute env0 cfgNone).2.2 = false ∧
        (hasFetch (execute env0 cfgNone).2.2 = true →
          truthyFields (execute env0 cfgNone).2.1.fields = true)) :=
  by
  have hh : ∀ o fs, env0.getAvailableFields o = .ok fs → fs ≠ [] := by
    intro o fs hfs
    simp [env0] at hfs
    simp [← hfs]
  exact ⟨hh, resolved_field_list_nonempty_at_fetch env0 cfgNone hh⟩

/-- C4: when the initial sign-in succeeds, field resolution behaves as
specified: with no explicit field list the resolved list is exactly the
hook's full field set and the field listing was called; with an explicit
non-empty field list the resolved list is exactly the configured one and the
field listing is never called. -/
theorem resolved_fields_explicit_or_hook (env : Env) (cfg : Config)
    (h0 : env.signIn 0 = .ok ()) :
    (cfg.fields = none →
      ∀ fs, env.getAvailableFields cfg.object = .ok fs →
        (execute env cfg).2.1.fields = some fs ∧
          hasGetAvailableFields (execute env cfg).2.2 = true) ∧
    (∀ l, cfg.fields = some l → l ≠ [] →
      (execute env cfg).2.1.fields = some l ∧
        hasGetAvailableFields (execute env cfg).2.2 = false) := by
  rcases execute_cases env cfg with ⟨e, hs, hx⟩ | ⟨hs, ht, e, ha, hx⟩ |
    ⟨hs, cfg2, rEvts, post, hres, hfin, hpost, hfetch⟩
  · rw [hs] at h0; cases h0
  · constructor
    · intro hn fs hfs
      rw [ha] at hfs; cases hfs
    · intro l hl hlne
      rw [hl] at ht
      simp [truthyFields, isEmpty_false_of_ne_nil hlne] at ht
  · obtain ⟨hpe, hpm, hpg, hpa⟩ := not_crm_any_false post hpost
    rcases hres with ⟨ht, rfl, rfl⟩ | ⟨ht, fs, ha, rfl, rfl⟩
    · constructor
      · intro hn
        rw [hn] at ht
        simp [truthyFields] at ht
      · intro l hl hlne
        refine ⟨by rw [hfin, hl], ?_⟩
        rcases hfetch with ⟨hq, ⟨e, h1, htr⟩ | ⟨h1, htr⟩⟩ | ⟨hq, htr⟩ <;>
          simp [htr, hasGetAvailableFields, List.any_append, isGetAvailableFields, hpa]
    · constructor
      · intro hn fs' hfs'
        rw [ha] at hfs'
        obtain rfl : fs = fs' := Except.ok.inj hfs'
        refine ⟨by rw [hfin], ?_⟩
        rcases hfetch with ⟨hq, ⟨e, h1, htr⟩ | ⟨h1, htr⟩⟩ | ⟨hq, htr⟩ <;>
          simp [htr, hasGetAvailableFields, List.any_append, isGetAvailableFields]
      · intro l hl hlne
        rw [hl] at ht
        simp [truthyFields, isEmpty_false_of_ne_nil hlne] at ht

theorem resolved_fields_explicit_or_hook_witness :
    (execute env0 cfgNone).2.1.fields = some ["Id"] ∧
      hasGetAvailableFields (execute env0 cfgNone).2.2 = true :=
  (resolved_fields_explicit_or_hook env0 cfgNone rfl).1 rfl ["Id"] rfl

/-- C5: for a custom query whose result has top-level records
`[{Contacts: {records: [A, B]}}, {other: 1}]` and configured relationship
object `"Contacts"`, the flattened record set is exactly `[A, B]`: the nested
relationship collections are concatenated in order and the top-level record
lacking the relationship is dropped. -/
theorem custom_query_flattening_example (env : Env) (A B : Record) (q : String)
    (s : St) (hq : q.isEmpty = false) (h1 : env.signIn s.nSignIn = .ok ())
    (h2 : env.makeQuery q =
      .ok { records := [[("Contacts", RValue.nested [A, B])],
        [("other", RValue.atom "1")]] }) :
    (special_query env (some q) (some "Contacts") s).1 = .ok { records := [A, B] } := by
  simp [special_query, doSignIn, emit, truthyOptStr, hq, h1, h2,
    flattenRecords, recGet, truthyVal]
  rfl

theorem custom_query_flattening_example_witness :
    ("SELECT X" : String).isEmpty = false ∧
      (special_query envContacts (some "SELECT X") (some "Contacts")
          { nSignIn := 0, trace := [] }).1 = .ok { records := [recA, recB] } :=
  ⟨rfl, custom_query_flattening_example envContacts recA recB "SELECT X" _ rfl rfl rfl⟩

/-- C6: on every successful execution the storage upload is invoked exactly
once, with `replace = true`, the configured bucket and key, and the
temporary file's name; serialization and the flush immediately precede the
upload call. -/
theorem upload_once_with_replace_after_flush (env : Env) (cfg : Config)
    (h : (execute env cfg).1 = .ok ()) :
    loadEvents (execute env cfg).2.2 =
      [Event.loadFile env.tmpName cfg.output cfg.s3_bucket true] ∧
      ∃ recs pre,
        (execute env cfg).2.2 =
          pre ++ [Event.writeObjectToFile recs env.tmpName cfg.fmt
              cfg.coerce_to_timestamp cfg.record_time_added,
            Event.flush,
            Event.loadFile env.tmpName cfg.output cfg.s3_bucket true,
            Event.closeConn, Event.tmpClose, Event.tmpDelete] := by
  obtain ⟨cfg2, s2, hfin, hpok, ho, hb, hf, hc, hr, hcrm, htr⟩ := execute_ok env cfg h
  obtain ⟨qres, s1, hfs, hpt⟩ := postResolve_ok env cfg2 s2 hpok
  have hs1 : s1.trace = (fetchStage env cfg2 s2).2.trace := by rw [hfs]
  have hfEvts : ∃ fEvts, s1.trace = s2.trace ++ fEvts ∧ fEvts.all isCrmCall = true := by
    rcases fetchStage_cases env cfg2 s2 with ⟨hq, ⟨e, h1, hft⟩ | ⟨h1, hft⟩⟩ | ⟨hq, hft⟩
    · exact ⟨[Event.signIn], by rw [hs1, hft], by simp [isCrmCall]⟩
    · exact ⟨[Event.signIn, Event.makeQuery (cfg2.query.getD "")],
        by rw [hs1, hft], by simp [isCrmCall]⟩
    · exact ⟨[Event.getObject cfg2.object (cfg2.fields.getD [])],
        by rw [hs1, hft], by simp [isCrmCall]⟩
  obtain ⟨fEvts, hse, hfcrm⟩ := hfEvts
  constructor
  · rw [htr, hpt, hse]
    simp [loadEvents, List.filter_append, filter_isLoad_nil_of_crm _ hcrm,
      filter_isLoad_nil_of_crm _ hfcrm, isLoad, ho, hb]
  · exact ⟨qres.records, s2.trace ++ fEvts,
      by rw [htr, hpt, hse]; simp [ho, hb, hf, hc, hr, List.append_assoc]⟩

theorem upload_once_with_replace_after_flush_witness :
    loadEvents (execute env0 cfgNone).2.2 =
      [Event.loadFile env0.tmpName cfgNone.output cfgNone.s3_bucket true] :=
  (upload_once_with_replace_after_flush env0 cfgNone rfl).1

/-- C8 (counterexample): in an execution whose initial sign-in raises, a
custom query string is configured and yet neither fetch mode runs — the
raw-query call is not invoked although a custom query is configured, so the
two "if and only if" clauses of the claim fail for this execution. -/
theorem no_fetch_mode_runs_when_sign_in_fails :
    truthyOptStr cfgQuery.query = true ∧
      hasMakeQuery (execute envAuthFail cfgQuery).2.2 = false ∧
      hasGetObject (execute envAuthFail cfgQuery).2.2 = false := by
  decide

/-- C8 (amended): the two fetch modes never both run in one execution, a
raw query runs only when a custom query string is configured, a named-object
fetch runs only when none is; and in every execution where every sign-in
succeeds and field resolution succeeds, exactly the configured mode's fetch
is invoked. -/
theorem fetch_modes_mutually_exclusive (env : Env) (cfg : Config) :
    (¬(hasMakeQuery (execute env cfg).2.2 = true ∧
        hasGetObject (execute env cfg).2.2 = true)) ∧
      (hasMakeQuery (execute env cfg).2.2 = true → truthyOptStr cfg.query = true) ∧
      (hasGetObject (execute env cfg).2.2 = true → truthyOptStr cfg.query = false) ∧
      ((∀ n, env.signIn n = .ok ()) →
        (truthyFields cfg.fields = true ∨
          (∃ fs, env.getAvailableFields cfg.object = .ok fs)) →
        hasMakeQuery (execute env cfg).2.2 = truthyOptStr cfg.query ∧
          hasGetObject (execute env cfg).2.2 = !truthyOptStr cfg.query) := by
  rcases execute_cases env cfg with ⟨e, hs, hx⟩ | ⟨hs, ht, e, ha, hx⟩ |
    ⟨hs, cfg2, rEvts, post, hres, hfin, hpost, hfetch⟩
  · refine ⟨by simp [hx, hasMakeQuery, hasGetObject, isMakeQuery, isGetObject],
      by simp [hx, hasMakeQuery, isMakeQuery],
      by simp [hx, hasGetObject, isGetObject], ?_⟩
    intro hall _
    simp [hall 0] at hs
  · refine ⟨by simp [hx, hasMakeQuery, hasGetObject, isMakeQuery, isGetObject],
      by simp [hx, hasMakeQuery, isMakeQuery],
      by simp [hx, hasGetObject, isGetObject], ?_⟩
    intro _ hres2
    rcases hres2 with h2 | ⟨fs, h2⟩
    · simp [ht] at h2
    · rw [ha] at h2; cases h2
  · obtain ⟨hpe, hpm, hpg, hpa⟩ := not_crm_any_false post hpost
    have hrE : rEvts.all isCrmCall = true := by
      rcases hres with ⟨-, -, rfl⟩ | ⟨-, fs, -, -, rfl⟩ <;> simp [isCrmCall]
    have hrEm : rEvts.any isMakeQuery = false ∧ rEvts.any isGetObject = false := by
      rcases hres with ⟨-, -, rfl⟩ | ⟨-, fs, -, -, rfl⟩ <;>
        simp [isMakeQuery, isGetObject]
    rcases hfetch with ⟨hq, hsub⟩ | ⟨hq, htr⟩
    · rcases hsub with ⟨e, h1, htr⟩ | ⟨h1, htr⟩
      · refine ⟨?_, fun _ => hq, ?_, ?_⟩
        · simp [htr, hasMakeQuery, hasGetObject, List.any_append, isMakeQuery,
            isGetObject, hpm, hpg, hrEm.1, hrEm.2]
        · simp [htr, hasGetObject, List.any_append, isGetObject, hpg, hrEm.2]
        · intro hall _
          simp [hall 1] at h1
      · refine ⟨?_, fun _ => hq, ?_, ?_⟩
        · simp [htr, hasMakeQuery, hasGetObject, List.any_append, isMakeQuery,
            isGetObject, hpm, hpg, hrEm.1, hrEm.2]
        · simp [htr, hasGetObject, List.any_append, isGetObject, hpg, hrEm.2]
        · intro _ _
          constructor
          · simp [htr, hasMakeQuery, List.any_append, isMakeQuery, hpm, hrEm.1, hq]
          · simp [htr, hasGetObject, List.any_append, isGetObject, hpg, hrEm.2, hq]
    · refine ⟨?_, ?_, fun _ => hq, ?_⟩
      · simp [htr, hasMakeQuery, hasGetObject, List.any_append, isMakeQuery,
          isGetObject, hpm, hpg, hrEm.1, hrEm.2]
      · simp [htr, hasMakeQuery, List.any_append, isMakeQuery, hpm, hrEm.1]
      · intro _ _
        constructor
        · simp [htr, hasMakeQuery, List.any_append, isMakeQuery, hpm, hrEm.1, hq]
        · simp [htr, hasGetObject, List.any_append, isGetObject, hpg, hrEm.2, hq]

theorem fetch_modes_mutually_exclusive_witness :
    hasMakeQuery (execute env0 cfgNone).2.2 = truthyOptStr cfgNone.query ∧
      hasGetObject (execute env0 cfgNone).2.2 = !truthyOptStr cfgNone.query :=
  (fetch_modes_mutually_exclusive env0 cfgNone).2.2.2 (fun _ => rfl)
    (Or.inr ⟨["Id"], rfl⟩)

/-- C9: in every execution in which the raw query is executed, exactly two
sign-in calls precede it — the initial authentication at the start of
`execute` and the second sign-in performed by `special_query` right before
the raw query. -/
theorem second_sign_in_before_custom_query (env : Env) (cfg : Config)
    (h : hasMakeQuery (execute env cfg).2.2 = true) :
    signInsBeforeFirstMakeQuery (execute env cfg).2.2 = 2 := by
  rcases execute_cases env cfg with ⟨e, hs, hx⟩ | ⟨hs, ht, e, ha, hx⟩ |
    ⟨hs, cfg2, rEvts, post, hres, hfin, hpost, hfetch⟩
  · simp [hx, hasMakeQuery, isMakeQuery] at h
  · simp [hx, hasMakeQuery, isMakeQuery] at h
  · obtain ⟨hpe, hpm, hpg, hpa⟩ := not_crm_any_false post hpost
    rcases hres with ⟨-, -, rfl⟩ | ⟨-, fs, -, -, rfl⟩ <;>
      rcases hfetch with ⟨hq, ⟨e, h1, htr⟩ | ⟨h1, htr⟩⟩ | ⟨hq, htr⟩ <;>
        rw [htr] at h ⊢ <;>
        simp_all [hasMakeQuery, isMakeQuery, List.any_append,
          signInsBefore_signIn, signInsBefore_makeQuery,
          signInsBefore_getAvailableFields]

theorem second_sign_in_before_custom_query_witness :
    hasMakeQuery (execute env0 cfgQuery).2.2 = true ∧
      signInsBeforeFirstMakeQuery (execute env0 cfgQuery).2.2 = 2 :=
  ⟨by decide, second_sign_in_before_custom_query env0 cfgQuery (by decide)⟩

/-- C10: an explicit but empty configured field list behaves exactly as an
absent one — the execution produces the same outcome and the same sequence
of hook calls (in particular it queries the hook for the full field set and
fetches with that set). -/
theorem empty_field_list_behaves_as_none (env : Env) (cfg : Config)
    (h : cfg.fields = some []) :
    (execute env cfg).1 = (execute env { cfg with fields := none }).1 ∧
      (execute env cfg).2.2 = (execute env { cfg with fields := none }).2.2 := by
  obtain ⟨c1, c2, c3, c4, c5, c6, c7, c8, c9, c10, c11⟩ := cfg
  replace h : c6 = some [] := h
  subst h
  rcases hs : env.signIn 0 with e | ⟨⟩ <;>
    rcases ha : env.getAvailableFields c5 with e2 | fs <;>
      simp [execute, executeBody, resolveFields, doSignIn, truthyFields, emit, hs, ha]

theorem empty_field_list_behaves_as_none_witness :
    (execute env0 cfgFieldsEmpty).1 =
        (execute env0 { cfgFieldsEmpty with fields := none }).1 ∧
      (execute env0 cfgFieldsEmpty).2.2 =
        (execute env0 { cfgFieldsEmpty with fields := none }).2.2 :=
  empty_field_list_behaves_as_none env0 cfgFieldsEmpty rfl

end SalesforceToS3
